import Mathlib

/-!
Shallow embedding of the payment-event relay server (`server.js` and its
variants): the raw-body capture middleware (`express.json` with a `verify`
hook), the Stripe signature verification gate (`stripe.webhooks.constructEvent`),
and the `POST /webhook` event processor that marks Firestore invoice documents
as paid.
-/

/-- Request bodies and signing payloads are byte sequences; each byte is a `Nat`. -/
abbrev Bytes := List Nat

/-- Parsed form of the `stripe-signature` header: a timestamp `t` and a
signature value `v1`.  A request's header is an `Option SigHeader`:
`none` models a missing or unparseable (malformed) header. -/
structure SigHeader where
  t : Nat
  v1 : Nat
  deriving DecidableEq, Repr

/-- Modelled from the spec: the processor-defined signing scheme is a
"timestamped HMAC over `timestamp.rawBody`" (the verifying code,
`stripe.webhooks.constructEvent`, lives in the external stripe library, not in
this repository).  The signed payload is the ASCII decimal rendering of the
timestamp, a `.` byte (46), then the raw body bytes. -/
def signedPayload (t : Nat) (body : Bytes) : Bytes :=
  ((Nat.digits 10 t).reverse.map (fun d => d + 48)) ++ (46 :: body)

/-- The signature header the processor produces when signing `body` with
`secret` at time `t`, for a given HMAC function. -/
def signHeader (hmac : Bytes → Bytes → Nat) (secret : Bytes) (t : Nat) (body : Bytes) :
    SigHeader :=
  ⟨t, hmac secret (signedPayload t body)⟩

/-- Modelled from the spec: `Verify(rawBody, signatureHeader, sharedSecret)`.
Recomputes the expected signature over the raw body, compares it with the
header's `v1`, and additionally requires the header timestamp to be within the
allowed staleness tolerance of the current time.  A missing or malformed
header (`none`) fails closed. -/
def verifySignature (hmac : Bytes → Bytes → Nat) (secret : Bytes) (body : Bytes)
    (sig : Option SigHeader) (now tolerance : Nat) : Bool :=
  match sig with
  | none => false
  | some h =>
    decide (hmac secret (signedPayload h.t body) = h.v1) && decide (now - h.t ≤ tolerance)

/-- The `metadata` object of a Stripe checkout session (may be absent on the
session; its `invoiceId` key may itself be absent). -/
structure SessionMetadata where
  invoiceId : Option String
  deriving DecidableEq, Repr

/-- `event.data.object` for a `checkout.session.completed` event: the fields the
webhook handler reads (`session.id`, `session.metadata?.invoiceId`,
`session.amount_total`, `session.currency`, `session.customer_details?.email`). -/
structure SessionObject where
  id : String
  metadata : Option SessionMetadata
  amount_total : Int
  currency : String
  customer_email : Option String
  deriving DecidableEq, Repr

/-- The JavaScript expression `session.metadata?.invoiceId`: `undefined` when
either the metadata object or the key is absent. -/
def metadataInvoiceId (session : SessionObject) : Option String :=
  session.metadata.bind (fun m => m.invoiceId)

/-- A decoded Stripe event: its `type` string and `data.object`. -/
structure StripeEvent where
  type : String
  object : SessionObject
  deriving DecidableEq, Repr

/-- The `paymentInfo` map the handler writes onto the invoice document. -/
structure PaymentInfo where
  stripeSessionId : String
  amount_total : Int
  currency : String
  customer_email : Option String
  deriving DecidableEq, Repr

/-- An invoice document.  Fields the webhook path reads or writes, plus the
fields other endpoints give it (`items`, `currency`, `checkoutUrl`,
`stripeSessionId`).  Timestamps are `Nat` instants (Firestore server
timestamps are modelled by passing the current time explicitly). -/
structure Invoice where
  status : String
  currency : Option String
  items : List (String × Int)
  checkoutUrl : Option String
  stripeSessionId : Option String
  paymentInfo : Option PaymentInfo
  paidAt : Option Nat
  updatedAt : Option Nat
  deriving DecidableEq, Repr

/-- Errors the Firestore client can raise on the webhook path: the store being
unreachable mid-update, and `update()` on a document that does not exist
(Firestore `update` requires the document to exist). -/
inductive StoreError
  | unavailable
  | notFound
  deriving DecidableEq, Repr

/-- The `invoices` collection: documents keyed by id, plus an availability
flag modelling whether the store is reachable. -/
structure Firestore where
  docs : List (String × Invoice)
  available : Bool
  deriving DecidableEq, Repr

/-- `db.collection("invoices").doc(id).get()`: the invoice stored under `id`. -/
def Firestore.getDoc (st : Firestore) (id : String) : Option Invoice :=
  (st.docs.find? (fun p => p.1 == id)).map Prod.snd

/-- Replace the document stored under `id` by `f` applied to it, leaving every
other entry alone. -/
def updKey (id : String) (f : Invoice → Invoice) (p : String × Invoice) :
    String × Invoice :=
  if p.1 == id then (p.1, f p.2) else p

/-- `db.collection("invoices").doc(id).update(...)`: fails when the store is
unreachable, fails with not-found when no document has key `id` (Firestore
`update` does not create documents), otherwise merges the update into the
stored document. -/
def Firestore.updateDoc (st : Firestore) (id : String) (f : Invoice → Invoice) :
    Except StoreError Firestore :=
  if st.available = false then .error .unavailable
  else if (st.docs.find? (fun p => p.1 == id)).isNone then .error .notFound
  else .ok { st with docs := st.docs.map (updKey id f) }

/-- The fallback query
`db.collection("invoices").where("stripeSessionId", "==", sid).limit(1).get()`:
the first document whose `stripeSessionId` field equals `sid`, or `none`;
fails when the store is unreachable. -/
def Firestore.queryBySessionId (st : Firestore) (sid : String) :
    Except StoreError (Option (String × Invoice)) :=
  if st.available = false then .error .unavailable
  else .ok (st.docs.find? (fun p => p.2.stripeSessionId == some sid))

/-- The update object the handler writes on confirmation: `status: "paid"`,
`paidAt` and `updatedAt` set to the server timestamp, and the `paymentInfo`
map built from the session. -/
def applyPaid (session : SessionObject) (now : Nat) (inv : Invoice) : Invoice :=
  { inv with
    status := "paid"
    paidAt := some now
    paymentInfo := some
      { stripeSessionId := session.id
        amount_total := session.amount_total
        currency := session.currency
        customer_email := session.customer_email }
    updatedAt := some now }

/-- The dispatch-and-apply body of the webhook handler (the `try` block inside
the route): on `checkout.session.completed`, resolve the invoice by
`metadata.invoiceId` when present, else by the `stripeSessionId` fallback
query; a fallback miss is a logged no-op.  Any other event type is ignored.
A `StoreError` models an exception escaping to the route's `catch`. -/
def handleEvent (event : StripeEvent) (st : Firestore) (now : Nat) :
    Except StoreError Firestore :=
  if event.type = "checkout.session.completed" then
    match metadataInvoiceId event.object with
    | some invoiceId => st.updateDoc invoiceId (applyPaid event.object now)
    | none =>
      match st.queryBySessionId event.object.id with
      | .error e => .error e
      | .ok (some found) => st.updateDoc found.1 (applyPaid event.object now)
      | .ok none => .ok st
  else
    .ok st

/-- Modelled from the spec plus the call site: `stripe.webhooks.constructEvent`
(external stripe library) verifies the signature over the raw bytes and only
then JSON-decodes the event; `decode` stands for that JSON parsing step.
`none` models the thrown error the route turns into a 400. -/
def constructEvent (hmac : Bytes → Bytes → Nat) (decode : Bytes → Option StripeEvent)
    (body : Bytes) (sig : Option SigHeader) (secret : Bytes) (now tolerance : Nat) :
    Option StripeEvent :=
  if verifySignature hmac secret body sig now tolerance then decode body else none

/-- The five response shapes of `POST /webhook` in `server.js`. -/
inductive WebhookResponse
  | notConfigured
  | rawBodyRequired
  | webhookError
  | processingError
  | received
  deriving DecidableEq, Repr

/-- HTTP status code of each webhook response: 500 "Webhook not configured",
400 "Raw body required for signature verification", 400 "Webhook Error: ...",
500 "Error processing webhook", 200 with body `received: true`. -/
def WebhookResponse.statusCode : WebhookResponse → Nat
  | .notConfigured => 500
  | .rawBodyRequired => 400
  | .webhookError => 400
  | .processingError => 500
  | .received => 200

/-- The `POST /webhook` route of `server.js`: reject with 500 when the shared
secret env var is unset; reject with 400 when the capture layer attached no
raw body; reject with 400 when `constructEvent` throws (bad signature or
undecodable body); otherwise run the handler body, turning a thrown store
error into 500 and success into the 200 acknowledgement. -/
def webhookPost (hmac : Bytes → Bytes → Nat) (decode : Bytes → Option StripeEvent)
    (webhookSecret : Option Bytes) (now tolerance procNow : Nat)
    (rawBody : Option Bytes) (sig : Option SigHeader) (st : Firestore) :
    WebhookResponse × Firestore :=
  match webhookSecret with
  | none => (.notConfigured, st)
  | some secret =>
    match rawBody with
    | none => (.rawBodyRequired, st)
    | some body =>
      match constructEvent hmac decode body sig secret now tolerance with
      | none => (.webhookError, st)
      | some event =>
        match handleEvent event st procNow with
        | .error _ => (.processingError, st)
        | .ok st2 => (.received, st2)

/-- Outcome of the body-capture middleware for one request: either the route
handler runs, with the `rawBody` the hook attached (if any) and the parsed
body (if the parser ran), or the parser rejected the request with a 400 and
the handler never runs. -/
inductive MiddlewareResult (α : Type)
  | handler (rawBody : Option Bytes) (parsedBody : Option α)
  | clientError
  deriving DecidableEq, Repr

/-- The capture layer of `server.js`: `express.json` with a `verify` hook.
For a JSON-content-typed request the hook attaches `req.rawBody := buf` only
when `buf` is nonempty (`if (buf and buf.length)`); body-parser special-cases
the empty body as the empty object without parsing; a nonempty body that does
not parse is rejected with a 400 and never reaches the handler.  Requests of
other content types skip the parser entirely. -/
def expressJsonWithVerify {α : Type} (parse : Bytes → Option α) (emptyObject : α)
    (contentTypeJson : Bool) (body : Bytes) : MiddlewareResult α :=
  if contentTypeJson then
    let raw : Option Bytes := if 0 < body.length then some body else none
    if body.length = 0 then .handler raw (some emptyObject)
    else
      match parse body with
      | some parsed => .handler raw (some parsed)
      | none => .clientError
  else
    .handler none none

/-- Response of a full webhook delivery: either body-parser's own 400
(`entity.parse.failed`) or a route response. -/
inductive DeliveryResponse
  | entityParseFailed
  | route (r : WebhookResponse)
  deriving DecidableEq, Repr

/-- HTTP status of a delivery response. -/
def DeliveryResponse.statusCode : DeliveryResponse → Nat
  | .entityParseFailed => 400
  | .route r => r.statusCode

/-- A full webhook delivery through `server.js`: the capture middleware runs
first; if it rejects, the route never runs; otherwise the route runs with
whatever raw body the hook attached. -/
def webhookDelivery {α : Type} (parse : Bytes → Option α) (emptyObject : α)
    (hmac : Bytes → Bytes → Nat) (decode : Bytes → Option StripeEvent)
    (webhookSecret : Option Bytes) (now tolerance procNow : Nat)
    (contentTypeJson : Bool) (body : Bytes) (sig : Option SigHeader) (st : Firestore) :
    DeliveryResponse × Firestore :=
  match expressJsonWithVerify parse emptyObject contentTypeJson body with
  | .clientError => (.entityParseFailed, st)
  | .handler rawBody _ =>
    let r := webhookPost hmac decode webhookSecret now tolerance procNow rawBody sig st
    (.route r.1, r.2)

/-- An injective encoding of a byte sequence into a natural number, used to
build a concrete collision-free HMAC instance for witnesses. -/
def encodeBytes : Bytes → Nat
  | [] => 0
  | a :: rest => Nat.pair a (encodeBytes rest) + 1

/-- A concrete HMAC instance that is injective in the pair (secret, message):
the idealization of a collision-free MAC. -/
def hmacPair (secret msg : Bytes) : Nat :=
  Nat.pair (encodeBytes secret) (encodeBytes msg)

/-- Decidable equality for `Except` results, so concrete runs of the handler
can be checked by `decide`. -/
instance {e a : Type} [DecidableEq e] [DecidableEq a] : DecidableEq (Except e a) := fun x y =>
  match x, y with
  | .error u, .error v => decidable_of_iff (u = v) ⟨fun h => by rw [h], Except.error.inj⟩
  | .error _, .ok _ => isFalse fun hc => Except.noConfusion hc
  | .ok _, .error _ => isFalse fun hc => Except.noConfusion hc
  | .ok u, .ok v => decidable_of_iff (u = v) ⟨fun h => by rw [h], Except.ok.inj⟩

/-! Concrete fixtures used by witnesses and counterexamples. -/

/-- A completed checkout session for invoice `INV-1`. -/
def exSession : SessionObject :=
  { id := "sess_1"
    metadata := some { invoiceId := some "INV-1" }
    amount_total := 1000
    currency := "usd"
    customer_email := none }

/-- A recognized `checkout.session.completed` event for `INV-1`. -/
def exEvent : StripeEvent :=
  { type := "checkout.session.completed", object := exSession }

/-- A pending invoice. -/
def pendingInv : Invoice :=
  { status := "pending"
    currency := some "usd"
    items := [("Wash", 10)]
    checkoutUrl := none
    stripeSessionId := some "sess_1"
    paymentInfo := none
    paidAt := none
    updatedAt := none }

/-- A store holding the single pending invoice `INV-1`. -/
def stPending : Firestore := { docs := [("INV-1", pendingInv)], available := true }

/-- The same store after the paid update at instant 7. -/
def paidStore : Firestore :=
  { docs := [("INV-1", applyPaid exSession 7 pendingInv)], available := true }

/-- The pending store while the document store is unreachable. -/
def stDown : Firestore := { docs := [("INV-1", pendingInv)], available := false }

/-- A checkout session carrying `metadata.invoiceId = "A"` whose session id
also matches invoice "B"'s stored `stripeSessionId`. -/
def sessionAB : SessionObject :=
  { id := "sess_ab"
    metadata := some { invoiceId := some "A" }
    amount_total := 500
    currency := "usd"
    customer_email := none }

/-- The recognized event for `sessionAB`. -/
def exEventA : StripeEvent :=
  { type := "checkout.session.completed", object := sessionAB }

/-- Invoice "A": pending, no session id recorded. -/
def invAx : Invoice :=
  { status := "pending"
    currency := some "usd"
    items := []
    checkoutUrl := none
    stripeSessionId := none
    paymentInfo := none
    paidAt := none
    updatedAt := none }

/-- Invoice "B": pending, holding the session id the event also carries. -/
def invBx : Invoice :=
  { status := "pending"
    currency := some "usd"
    items := []
    checkoutUrl := none
    stripeSessionId := some "sess_ab"
    paymentInfo := none
    paidAt := none
    updatedAt := none }

/-- The two-invoice store for the resolution-priority scenario. -/
def stAB : Firestore := { docs := [("A", invAx), ("B", invBx)], available := true }

/-- The same store after "A" alone received the paid update at instant 7. -/
def stABpaid : Firestore :=
  { docs := [("A", applyPaid sessionAB 7 invAx), ("B", invBx)], available := true }

/-- A recognized event whose metadata names an invoice that does not exist. -/
def exEventX : StripeEvent :=
  { type := "checkout.session.completed"
    object :=
      { id := "sess_9"
        metadata := some { invoiceId := some "X" }
        amount_total := 5
        currency := "usd"
        customer_email := none } }

/-- A recognized event with no metadata and a session id matching no invoice. -/
def exEventNoMeta : StripeEvent :=
  { type := "checkout.session.completed"
    object :=
      { id := "sess_other"
        metadata := none
        amount_total := 5
        currency := "usd"
        customer_email := none } }

/-- The empty, reachable store. -/
def stEmpty : Firestore := { docs := [], available := true }

/-- A stand-in for JSON.parse recording the single fact the C8 counterexample
needs: the one-byte body holding only the opening-brace byte 123 (0x7B) is not
well-formed JSON, so parsing it fails (JSON.parse of that body throws). -/
def jsonParseAt123 : Bytes → Option Unit :=
  fun b => if b = [123] then none else some ()

/-! Helper lemmas about the verification scheme. -/

/-- Unfolding lemma: verification with a present header succeeds exactly when
the recomputed HMAC matches `v1` and the timestamp is within tolerance. -/
theorem verifySignature_some_iff (hmac : Bytes → Bytes → Nat) (secret body : Bytes)
    (h : SigHeader) (now tolerance : Nat) :
    verifySignature hmac secret body (some h) now tolerance = true ↔
      (hmac secret (signedPayload h.t body) = h.v1 ∧ now - h.t ≤ tolerance) := by
  simp [verifySignature]

/-- Two signed payloads with the same timestamp agree only on equal bodies. -/
theorem signedPayload_inj_body {t : Nat} {b1 b2 : Bytes}
    (h : signedPayload t b1 = signedPayload t b2) : b1 = b2 := by
  unfold signedPayload at h
  simpa using List.append_cancel_left h

/-- The byte-sequence encoding is injective. -/
theorem encodeBytes_inj : ∀ l1 l2 : Bytes, encodeBytes l1 = encodeBytes l2 → l1 = l2 := by
  intro l1
  induction l1 with
  | nil =>
    intro l2 h
    cases l2 with
    | nil => rfl
    | cons b t =>
      exfalso
      simp only [encodeBytes] at h
      omega
  | cons a t ih =>
    intro l2 h
    cases l2 with
    | nil =>
      exfalso
      simp only [encodeBytes] at h
      omega
    | cons b t2 =>
      simp only [encodeBytes] at h
      have hp : Nat.pair a (encodeBytes t) = Nat.pair b (encodeBytes t2) := by omega
      obtain ⟨h1, h2⟩ := Nat.pair_eq_pair.mp hp
      rw [h1, ih t2 h2]

/-- The concrete HMAC instance is collision-free in (secret, message). -/
theorem hmacPair_inj : ∀ s m s2 m2 : Bytes, hmacPair s m = hmacPair s2 m2 → s = s2 ∧ m = m2 := by
  intro s m s2 m2 h
  simp only [hmacPair] at h
  obtain ⟨h1, h2⟩ := Nat.pair_eq_pair.mp h
  exact ⟨encodeBytes_inj _ _ h1, encodeBytes_inj _ _ h2⟩

/-! Helper lemmas about the store operations. -/

/-- Updating one key never changes an entry's key. -/
theorem updKey_fst (id : String) (f : Invoice → Invoice) (p : String × Invoice) :
    (updKey id f p).1 = p.1 := by
  unfold updKey
  split <;> rfl

/-- Two updates of the same key compose pointwise. -/
theorem updKey_comp (id : String) (f1 f2 : Invoice → Invoice) (p : String × Invoice) :
    updKey id f2 (updKey id f1 p) = updKey id (fun v => f2 (f1 v)) p := by
  unfold updKey
  by_cases h : (p.1 == id) = true <;> simp [h]

/-- `find?` commutes with a map that does not change the predicate. -/
theorem find?_map_of_invariant {α : Type} (g : α → α) (p : α → Bool)
    (hp : ∀ a, p (g a) = p a) (l : List α) :
    (l.map g).find? p = (l.find? p).map g := by
  have hpg : p ∘ g = p := funext hp
  rw [List.find?_map, hpg]

/-- Destructor for a successful `updateDoc`: the store was available, the key
was present, and the result replaced the matching entries. -/
theorem updateDoc_ok_elim {st st1 : Firestore} {id : String} {f : Invoice → Invoice}
    (h : st.updateDoc id f = .ok st1) :
    st.available = true ∧
    (st.docs.find? (fun p => p.1 == id)).isSome = true ∧
    st1 = { docs := st.docs.map (updKey id f), available := st.available } := by
  unfold Firestore.updateDoc at h
  split at h
  · exact absurd h (by simp)
  · split at h
    · exact absurd h (by simp)
    · rename_i h1 h2
      refine ⟨?_, ?_, ?_⟩
      · cases hav : st.available
        · exact absurd hav h1
        · rfl
      · cases hf : st.docs.find? (fun p => p.1 == id)
        · rw [hf] at h2; simp at h2
        · rfl
      · injection h with h3
        exact h3.symm

/-- Constructor for a successful `updateDoc`. -/
theorem updateDoc_ok_intro (st : Firestore) (id : String) (f : Invoice → Invoice)
    (hav : st.available = true)
    (hfind : (st.docs.find? (fun p => p.1 == id)).isSome = true) :
    st.updateDoc id f = .ok { docs := st.docs.map (updKey id f), available := st.available } := by
  cases hf : st.docs.find? (fun p => p.1 == id) with
  | none => rw [hf] at hfind; simp at hfind
  | some p =>
    unfold Firestore.updateDoc
    rw [hav, hf]
    simp

/-- A second update of the same key on the result of a first one is one update
by the composite. -/
theorem updateDoc_after_updateDoc {st st1 : Firestore} {id : String}
    {f1 f2 : Invoice → Invoice} (h : st.updateDoc id f1 = .ok st1) :
    st1.updateDoc id f2 = st.updateDoc id (fun v => f2 (f1 v)) := by
  obtain ⟨hav, hfind, hst1⟩ := updateDoc_ok_elim h
  subst hst1
  have hinv : ∀ q : String × Invoice,
      (fun p : String × Invoice => p.1 == id) (updKey id f1 q) =
      (fun p : String × Invoice => p.1 == id) q := by
    intro q
    simp only [updKey_fst]
  unfold Firestore.updateDoc
  simp only [hav]
  rw [find?_map_of_invariant (updKey id f1) _ hinv]
  cases hf : st.docs.find? (fun p => p.1 == id) with
  | none => rw [hf] at hfind; simp at hfind
  | some p =>
    simp only [Option.map_some, Option.isNone_some, Bool.false_eq_true, if_false,
      List.map_map]
    have hcomp : updKey id f2 ∘ updKey id f1 = updKey id (fun v => f2 (f1 v)) :=
      funext (updKey_comp id f1 f2)
    rw [hcomp]
    simp

/-- `updateDoc` via `applyPaid` does not change which document the fallback
session query finds: the keys and `stripeSessionId` fields are untouched. -/
theorem queryBySessionId_after_updateDoc {st st1 : Firestore} {id : String}
    {s : SessionObject} {t : Nat}
    (h : st.updateDoc id (applyPaid s t) = .ok st1) (sid : String) :
    st1.queryBySessionId sid =
      (st.queryBySessionId sid).map (fun r => r.map (updKey id (applyPaid s t))) := by
  obtain ⟨hav, _, hst1⟩ := updateDoc_ok_elim h
  subst hst1
  have hinv : ∀ q : String × Invoice,
      (fun p : String × Invoice => p.2.stripeSessionId == some sid) (updKey id (applyPaid s t) q) =
      (fun p : String × Invoice => p.2.stripeSessionId == some sid) q := by
    intro q
    unfold updKey
    split <;> rfl
  unfold Firestore.queryBySessionId
  simp only [hav]
  rw [find?_map_of_invariant (updKey id (applyPaid s t)) _ hinv]
  simp [Except.map]

/-- A successful update keeps the document keys and the availability flag. -/
theorem updateDoc_keys {st st1 : Firestore} {id : String} {f : Invoice → Invoice}
    (h : st.updateDoc id f = .ok st1) :
    st1.docs.map Prod.fst = st.docs.map Prod.fst ∧ st1.available = st.available := by
  obtain ⟨_, _, hst1⟩ := updateDoc_ok_elim h
  subst hst1
  refine ⟨?_, rfl⟩
  rw [List.map_map, show Prod.fst ∘ updKey id f = Prod.fst from funext fun p => updKey_fst id f p]

/-- Reading any key after a successful update: the updated key now holds the
image under `f`, all other keys are untouched. -/
theorem getDoc_updateDoc {st st1 : Firestore} {id : String} {f : Invoice → Invoice}
    (h : st.updateDoc id f = .ok st1) (k : String) :
    st1.getDoc k = if k = id then (st.getDoc k).map f else st.getDoc k := by
  obtain ⟨_, _, hst1⟩ := updateDoc_ok_elim h
  subst hst1
  unfold Firestore.getDoc
  have hinv : ∀ q : String × Invoice,
      (fun p : String × Invoice => p.1 == k) (updKey id f q) =
      (fun p : String × Invoice => p.1 == k) q := by
    intro q
    simp only [updKey_fst]
  rw [show ({ docs := st.docs.map (updKey id f), available := st.available } : Firestore).docs
        = st.docs.map (updKey id f) from rfl,
      find?_map_of_invariant (updKey id f) _ hinv]
  cases hf : st.docs.find? (fun p => p.1 == k) with
  | none => simp
  | some p =>
    have hp : (p.1 == k) = true := by simpa using List.find?_some hf
    have hpk : p.1 = k := by simpa using hp
    by_cases hk : k = id
    · subst hk
      simp [updKey, hpk]
    · have : (p.1 == id) = false := by
        rw [hpk]
        simpa using hk
      simp [updKey, this, hk]

/-- Applying the paid update twice is one application at the later instant. -/
theorem applyPaid_applyPaid (s : SessionObject) (t1 t2 : Nat) (inv : Invoice) :
    applyPaid s t2 (applyPaid s t1 inv) = applyPaid s t2 inv := rfl

/-- The paid update never touches the document's `stripeSessionId` field. -/
theorem applyPaid_stripeSessionId (s : SessionObject) (t : Nat) (inv : Invoice) :
    (applyPaid s t inv).stripeSessionId = inv.stripeSessionId := rfl

/-- Unfolding the route past a successful `constructEvent`. -/
theorem webhookPost_constructEvent_some {hmac : Bytes → Bytes → Nat}
    {decode : Bytes → Option StripeEvent} {secret body : Bytes} {sig : Option SigHeader}
    {now tolerance procNow : Nat} {st : Firestore} {e : StripeEvent}
    (hc : constructEvent hmac decode body sig secret now tolerance = some e) :
    webhookPost hmac decode (some secret) now tolerance procNow (some body) sig st =
      (match handleEvent e st procNow with
        | .error _ => (.processingError, st)
        | .ok st2 => (.received, st2)) := by
  show (match constructEvent hmac decode body sig secret now tolerance with
        | none => ((.webhookError : WebhookResponse), st)
        | some event =>
          match handleEvent event st procNow with
          | .error _ => (.processingError, st)
          | .ok st2 => (.received, st2)) = _
  rw [hc]

/-! Claim theorems. -/

/-- C1: for every (rawBody, secret) pair, signature verification succeeds iff
the header was computed with that exact secret over that exact byte sequence
at a timestamp within the tolerance (parts 1 and 2, the second under the
collision-freeness idealization of the HMAC), and verification of any
single-byte mutation of the body against a header signed over the original
body fails (part 3). -/
theorem C1_verify_iff_signed (hmac : Bytes → Bytes → Nat)
    (hinj : ∀ s m s2 m2, hmac s m = hmac s2 m2 → s = s2 ∧ m = m2)
    (secret body : Bytes) (now tolerance : Nat) :
    (∀ h : SigHeader,
      verifySignature hmac secret body (some h) now tolerance = true ↔
        ∃ ts, h = signHeader hmac secret ts body ∧ now - ts ≤ tolerance) ∧
    (∀ s2 b2 ts,
      verifySignature hmac secret body (some (signHeader hmac s2 ts b2)) now tolerance = true →
        s2 = secret ∧ b2 = body) ∧
    (∀ ts i b (hi : i < body.length), body.get ⟨i, hi⟩ ≠ b →
      verifySignature hmac secret (body.set i b)
        (some (signHeader hmac secret ts body)) now tolerance = false) := by
  refine ⟨?_, ?_, ?_⟩
  · intro h
    rw [verifySignature_some_iff]
    constructor
    · rintro ⟨hv, ht⟩
      refine ⟨h.t, ?_, ht⟩
      cases h with
      | mk t v1 => simp only [signHeader] at hv ⊢; rw [hv]
    · rintro ⟨ts, rfl, ht⟩
      exact ⟨rfl, ht⟩
  · intro s2 b2 ts hv
    rw [verifySignature_some_iff] at hv
    have hv1 : hmac secret (signedPayload ts body) = hmac s2 (signedPayload ts b2) := hv.1
    obtain ⟨hs, hm⟩ := hinj _ _ _ _ hv1
    exact ⟨hs.symm, (signedPayload_inj_body hm).symm⟩
  · intro ts i b hi hne
    rw [Bool.eq_false_iff]
    intro hv
    rw [verifySignature_some_iff] at hv
    have hv1 : hmac secret (signedPayload ts (body.set i b)) =
        hmac secret (signedPayload ts body) := hv.1
    have hm := (hinj _ _ _ _ hv1).2
    have hset : body.set i b = body := signedPayload_inj_body hm
    have hq : (body.set i b)[i]? = body[i]? := by rw [hset]
    rw [List.getElem?_set_self hi, List.getElem?_eq_getElem hi] at hq
    have hb : b = body.get ⟨i, hi⟩ := by
      rw [List.get_eq_getElem]
      exact Option.some.inj hq
    exact hne hb.symm

/-- Witness for C1: with the concrete collision-free HMAC, a header signed over
the exact body at timestamp 5 verifies at time 6 with tolerance 300, and the
same header fails to verify against the body with its first byte mutated. -/
theorem C1_verify_iff_signed_witness :
    verifySignature hmacPair [1, 2] [3, 4]
        (some (signHeader hmacPair [1, 2] 5 [3, 4])) 6 300 = true ∧
    verifySignature hmacPair [1, 2] ([3, 4].set 0 9)
        (some (signHeader hmacPair [1, 2] 5 [3, 4])) 6 300 = false := by
  have h := C1_verify_iff_signed hmacPair hmacPair_inj [1, 2] [3, 4] 6 300
  exact ⟨(h.1 _).mpr ⟨5, rfl, by decide⟩, h.2.2 5 0 9 (by decide) (by decide)⟩

/-- C2: a webhook delivery whose signature verification fails is answered with
the 400 Webhook Error response, the event is never dispatched, and no invoice
record is mutated: every document reads back exactly as before the delivery. -/
theorem C2_bad_signature_rejected (hmac : Bytes → Bytes → Nat)
    (decode : Bytes → Option StripeEvent) (secret body : Bytes)
    (sig : Option SigHeader) (now tolerance procNow : Nat) (st : Firestore)
    (hfail : verifySignature hmac secret body sig now tolerance = false) :
    webhookPost hmac decode (some secret) now tolerance procNow (some body) sig st
        = (.webhookError, st) ∧
    WebhookResponse.statusCode .webhookError = 400 ∧
    ∀ id, ((webhookPost hmac decode (some secret) now tolerance procNow
        (some body) sig st).2).getDoc id = st.getDoc id := by
  have hc : constructEvent hmac decode body sig secret now tolerance = none := by
    unfold constructEvent
    rw [hfail]
    simp
  have hmain : webhookPost hmac decode (some secret) now tolerance procNow
      (some body) sig st = (.webhookError, st) := by
    show (match constructEvent hmac decode body sig secret now tolerance with
          | none => ((.webhookError : WebhookResponse), st)
          | some event =>
            match handleEvent event st procNow with
            | .error _ => (.processingError, st)
            | .ok st2 => (.received, st2)) = _
    rw [hc]
  refine ⟨hmain, rfl, fun id => by rw [hmain]⟩

/-- Witness for C2: a concrete delivery with a wrong `v1` is rejected with the
400 response and invoice `INV-1` still reads back as the pending invoice. -/
theorem C2_bad_signature_rejected_witness :
    webhookPost (fun _ _ => 0) (fun _ => none) (some [1]) 0 300 0 (some [2])
        (some ⟨0, 1⟩) stPending = (.webhookError, stPending) ∧
    ((webhookPost (fun _ _ => 0) (fun _ => none) (some [1]) 0 300 0 (some [2])
        (some ⟨0, 1⟩) stPending).2).getDoc "INV-1" = stPending.getDoc "INV-1" := by
  have h := C2_bad_signature_rejected (fun _ _ => 0) (fun _ => none) [1] [2]
    (some ⟨0, 1⟩) 0 300 0 stPending (by decide)
  exact ⟨h.1, h.2.2 "INV-1"⟩

/-- The fallback query on the updated store still finds the same document,
now carrying the applied update. -/
theorem queryBySessionId_after_updateDoc_found {st st1 : Firestore}
    {s : SessionObject} {t : Nat} {found : String × Invoice}
    (hq : st.queryBySessionId s.id = .ok (some found))
    (h : st.updateDoc found.1 (applyPaid s t) = .ok st1) :
    st1.queryBySessionId s.id = .ok (some (found.1, applyPaid s t found.2)) := by
  have h2 := queryBySessionId_after_updateDoc h s.id
  rw [hq] at h2
  rw [h2]
  simp [Except.map, updKey]

/-- Unfolding equation: with metadata present the handler is the direct update. -/
theorem handleEvent_meta (e : StripeEvent) (st : Firestore) (now : Nat) (invoiceId : String)
    (hty : e.type = "checkout.session.completed")
    (hmeta : metadataInvoiceId e.object = some invoiceId) :
    handleEvent e st now = st.updateDoc invoiceId (applyPaid e.object now) := by
  unfold handleEvent
  rw [if_pos hty, hmeta]

/-- Unfolding equation: metadata absent and the fallback query throws. -/
theorem handleEvent_nometa_err (e : StripeEvent) (st : Firestore) (now : Nat) (err : StoreError)
    (hty : e.type = "checkout.session.completed")
    (hmeta : metadataInvoiceId e.object = none)
    (hq : st.queryBySessionId e.object.id = .error err) :
    handleEvent e st now = .error err := by
  unfold handleEvent
  rw [if_pos hty, hmeta, hq]

/-- Unfolding equation: metadata absent and the fallback query finds a document. -/
theorem handleEvent_nometa_found (e : StripeEvent) (st : Firestore) (now : Nat)
    (found : String × Invoice)
    (hty : e.type = "checkout.session.completed")
    (hmeta : metadataInvoiceId e.object = none)
    (hq : st.queryBySessionId e.object.id = .ok (some found)) :
    handleEvent e st now = st.updateDoc found.1 (applyPaid e.object now) := by
  unfold handleEvent
  rw [if_pos hty, hmeta, hq]

/-- Unfolding equation: metadata absent and the fallback query finds nothing:
the logged no-op. -/
theorem handleEvent_nometa_none (e : StripeEvent) (st : Firestore) (now : Nat)
    (hty : e.type = "checkout.session.completed")
    (hmeta : metadataInvoiceId e.object = none)
    (hq : st.queryBySessionId e.object.id = .ok none) :
    handleEvent e st now = .ok st := by
  unfold handleEvent
  rw [if_pos hty, hmeta, hq]

/-- Unfolding equation: unrecognized event types are acknowledged and ignored. -/
theorem handleEvent_other (e : StripeEvent) (st : Firestore) (now : Nat)
    (hty : ¬ e.type = "checkout.session.completed") :
    handleEvent e st now = .ok st := by
  unfold handleEvent
  rw [if_neg hty]

/-- C3: applying the same recognized event a second time (simulated redelivery)
is absorbed: re-running the handler on the already-updated store succeeds and
leaves the store exactly as a single application left it; a second application
at any instant produces the identical end state as a single application at
that instant; and no documents are created or destroyed. -/
theorem C3_idempotent (e : StripeEvent) (st st1 : Firestore) (t1 : Nat)
    (h : handleEvent e st t1 = .ok st1) :
    handleEvent e st1 t1 = .ok st1 ∧
    (∀ t2, handleEvent e st1 t2 = handleEvent e st t2) ∧
    st1.docs.map Prod.fst = st.docs.map Prod.fst := by
  have key : ∀ t2, handleEvent e st1 t2 = handleEvent e st t2 := by
    intro t2
    have hcollapse : (fun v => applyPaid e.object t2 (applyPaid e.object t1 v))
        = applyPaid e.object t2 := funext fun v => applyPaid_applyPaid e.object t1 t2 v
    by_cases hty : e.type = "checkout.session.completed"
    · cases hmeta : metadataInvoiceId e.object with
      | some invoiceId =>
        rw [handleEvent_meta e st t1 invoiceId hty hmeta] at h
        rw [handleEvent_meta e st1 t2 invoiceId hty hmeta,
          handleEvent_meta e st t2 invoiceId hty hmeta,
          updateDoc_after_updateDoc h, hcollapse]
      | none =>
        cases hq : st.queryBySessionId e.object.id with
        | error err =>
          rw [handleEvent_nometa_err e st t1 err hty hmeta hq] at h
          exact Except.noConfusion h
        | ok r =>
          cases r with
          | none =>
            rw [handleEvent_nometa_none e st t1 hty hmeta hq] at h
            injection h with h2
            subst h2
            rfl
          | some found =>
            rw [handleEvent_nometa_found e st t1 found hty hmeta hq] at h
            have hq1 := queryBySessionId_after_updateDoc_found hq h
            rw [handleEvent_nometa_found e st1 t2 (found.1, applyPaid e.object t1 found.2)
              hty hmeta hq1]
            show st1.updateDoc found.1 (applyPaid e.object t2) = handleEvent e st t2
            rw [handleEvent_nometa_found e st t2 found hty hmeta hq,
              updateDoc_after_updateDoc h, hcollapse]
    · rw [handleEvent_other e st t1 hty] at h
      injection h with h2
      subst h2
      rfl
  have keys : st1.docs.map Prod.fst = st.docs.map Prod.fst := by
    by_cases hty : e.type = "checkout.session.completed"
    · cases hmeta : metadataInvoiceId e.object with
      | some invoiceId =>
        rw [handleEvent_meta e st t1 invoiceId hty hmeta] at h
        exact (updateDoc_keys h).1
      | none =>
        cases hq : st.queryBySessionId e.object.id with
        | error err =>
          rw [handleEvent_nometa_err e st t1 err hty hmeta hq] at h
          exact Except.noConfusion h
        | ok r =>
          cases r with
          | none =>
            rw [handleEvent_nometa_none e st t1 hty hmeta hq] at h
            injection h with h2
            subst h2
            rfl
          | some found =>
            rw [handleEvent_nometa_found e st t1 found hty hmeta hq] at h
            exact (updateDoc_keys h).1
    · rw [handleEvent_other e st t1 hty] at h
      injection h with h2
      subst h2
      rfl
  exact ⟨(key t1).trans h, key, keys⟩

/-- Witness for C3: re-applying the `INV-1` confirmation to the already-paid
store leaves it exactly in the paid state, with the same document keys. -/
theorem C3_idempotent_witness :
    handleEvent exEvent paidStore 7 = .ok paidStore ∧
    paidStore.docs.map Prod.fst = stPending.docs.map Prod.fst := by
  have h := C3_idempotent exEvent stPending paidStore 7 (by decide)
  exact ⟨h.1, h.2.2⟩

/-- If verification fails, `constructEvent` throws: the payload is never
decoded. -/
theorem constructEvent_none_of_verify_false {hmac : Bytes → Bytes → Nat}
    (decode : Bytes → Option StripeEvent) {secret body : Bytes} {sig : Option SigHeader}
    {now tolerance : Nat}
    (hfail : verifySignature hmac secret body sig now tolerance = false) :
    constructEvent hmac decode body sig secret now tolerance = none := by
  unfold constructEvent
  rw [hfail]
  simp

/-- Unfolding the route past a failed `constructEvent`. -/
theorem webhookPost_constructEvent_none {hmac : Bytes → Bytes → Nat}
    {decode : Bytes → Option StripeEvent} {secret body : Bytes} {sig : Option SigHeader}
    {now tolerance : Nat} (procNow : Nat) (st : Firestore)
    (hc : constructEvent hmac decode body sig secret now tolerance = none) :
    webhookPost hmac decode (some secret) now tolerance procNow (some body) sig st
      = (.webhookError, st) := by
  show (match constructEvent hmac decode body sig secret now tolerance with
        | none => ((.webhookError : WebhookResponse), st)
        | some event =>
          match handleEvent event st procNow with
          | .error _ => (.processingError, st)
          | .ok st2 => (.received, st2)) = _
  rw [hc]

/-- C4: for a recognized event carrying `metadata.invoiceId = "A"` while its
session id matches a different invoice "B"'s `providerSessionId`, the handler
updates "A" only: the direct key lookup takes priority, "B" reads back
untouched, and every document other than "A" is unchanged (the secondary
lookup is never consulted). -/
theorem C4_metadata_priority (e : StripeEvent) (st : Firestore) (now : Nat)
    (aId bId : String) (invA invB : Invoice)
    (hty : e.type = "checkout.session.completed")
    (hmeta : metadataInvoiceId e.object = some aId)
    (hne : bId ≠ aId)
    (hA : st.getDoc aId = some invA)
    (hB : st.getDoc bId = some invB)
    (_hBsid : invB.stripeSessionId = some e.object.id)
    (hav : st.available = true) :
    ∃ st1, handleEvent e st now = .ok st1 ∧
      st1.getDoc aId = some (applyPaid e.object now invA) ∧
      st1.getDoc bId = some invB ∧
      ∀ k, k ≠ aId → st1.getDoc k = st.getDoc k := by
  have hfind : (st.docs.find? (fun p => p.1 == aId)).isSome = true := by
    unfold Firestore.getDoc at hA
    cases hf : st.docs.find? (fun p => p.1 == aId) with
    | none => rw [hf] at hA; exact Option.noConfusion hA
    | some p => rfl
  have hupd := updateDoc_ok_intro st aId (applyPaid e.object now) hav hfind
  refine ⟨(⟨st.docs.map (updKey aId (applyPaid e.object now)), st.available⟩ : Firestore),
    ?_, ?_, ?_, ?_⟩
  · rw [handleEvent_meta e st now aId hty hmeta]
    exact hupd
  · rw [getDoc_updateDoc hupd aId, if_pos rfl, hA]
    rfl
  · rw [getDoc_updateDoc hupd bId, if_neg hne]
    exact hB
  · intro k hk
    rw [getDoc_updateDoc hupd k, if_neg hk]

/-- Witness for C4 at the concrete two-invoice store: "A" alone is updated,
"B" still reads back pending. -/
theorem C4_metadata_priority_witness :
    handleEvent exEventA stAB 7 = .ok stABpaid ∧ stABpaid.getDoc "B" = some invBx := by
  obtain ⟨st1, h1, hA1, hB1, hrest⟩ := C4_metadata_priority exEventA stAB 7 "A" "B"
    invAx invBx rfl (by decide) (by decide) (by decide) (by decide) (by decide) rfl
  have hc : handleEvent exEventA stAB 7 = .ok stABpaid := by decide
  have h2 : st1 = stABpaid := Except.ok.inj (h1.symm.trans hc)
  exact ⟨hc, h2 ▸ hB1⟩

/-- C5 counterexample: a delivery arriving while the webhook shared secret is
missing is answered 500 "Webhook not configured" — a server error, not the
4xx client error the claim requires. -/
theorem C5_missing_secret_cex :
    (webhookPost (fun _ _ => 0) (fun _ => none) none 0 300 0 (some [1]) none stPending).1
      = .notConfigured ∧
    WebhookResponse.statusCode .notConfigured = 500 ∧
    ¬(400 ≤ WebhookResponse.statusCode .notConfigured ∧
      WebhookResponse.statusCode .notConfigured < 500) := by
  decide

/-- C5 (amended): a missing or malformed signature header always fails
verification; an absent raw body is answered 400 without the payload being
interpreted; a verification mismatch is answered 400 with the response
independent of the JSON decoding step; but a missing shared secret is
answered 500 "Webhook not configured" (also without interpreting the
payload), not 4xx. -/
theorem C5_fails_closed (hmac : Bytes → Bytes → Nat)
    (decode decode2 : Bytes → Option StripeEvent) (secret body : Bytes)
    (sig : Option SigHeader) (now tolerance procNow : Nat) (st : Firestore) :
    webhookPost hmac decode none now tolerance procNow (some body) sig st
      = (.notConfigured, st) ∧
    WebhookResponse.statusCode .notConfigured = 500 ∧
    webhookPost hmac decode (some secret) now tolerance procNow none sig st
      = (.rawBodyRequired, st) ∧
    WebhookResponse.statusCode .rawBodyRequired = 400 ∧
    verifySignature hmac secret body none now tolerance = false ∧
    (verifySignature hmac secret body sig now tolerance = false →
      webhookPost hmac decode (some secret) now tolerance procNow (some body) sig st
        = (.webhookError, st) ∧
      webhookPost hmac decode (some secret) now tolerance procNow (some body) sig st
        = webhookPost hmac decode2 (some secret) now tolerance procNow (some body) sig st) := by
  refine ⟨rfl, rfl, rfl, rfl, rfl, fun hfail => ?_⟩
  have h1 := webhookPost_constructEvent_none procNow st
    (constructEvent_none_of_verify_false decode hfail)
  have h2 := webhookPost_constructEvent_none procNow st
    (constructEvent_none_of_verify_false decode2 hfail)
  exact ⟨h1, h1.trans h2.symm⟩

/-- Witness for C5: concrete deliveries with a missing secret and with a
wrong signature value. -/
theorem C5_fails_closed_witness :
    webhookPost (fun _ _ => 0) (fun _ => none) none 0 300 0 (some [2]) none stPending
      = (.notConfigured, stPending) ∧
    webhookPost (fun _ _ => 0) (fun _ => none) (some [1]) 0 300 0 (some [2])
      (some ⟨0, 1⟩) stPending = (.webhookError, stPending) := by
  have h1 := C5_fails_closed (fun _ _ => 0) (fun _ => none) (fun _ => none) [1] [2]
    none 0 300 0 stPending
  have h2 := C5_fails_closed (fun _ _ => 0) (fun _ => none) (fun _ => none) [1] [2]
    (some ⟨0, 1⟩) 0 300 0 stPending
  exact ⟨h1.1, (h2.2.2.2.2.2 (by decide)).1⟩

/-- C6 counterexample: a verified recognized event whose `metadata.invoiceId`
names no existing invoice resolves to no matching invoice, yet the delivery is
answered 500 — the Firestore `update` throws not-found — instead of the 2xx
acknowledgement the claim requires. -/
theorem C6_direct_miss_cex :
    webhookPost (fun _ _ => 0) (fun _ => some exEventX) (some [7]) 0 300 0 (some [1])
        (some ⟨0, 0⟩) stEmpty = (.processingError, stEmpty) ∧
    WebhookResponse.statusCode .processingError = 500 := by
  decide

/-- C6 (amended): a verified recognized event with no `metadata.invoiceId`
whose session id matches no invoice is a non-fatal no-op: logged, acknowledged
2xx, store untouched; but an event whose `metadata.invoiceId` names a
nonexistent document makes the direct update throw, failing the delivery
with 500. -/
theorem C6_resolution_miss (hmac : Bytes → Bytes → Nat) (decode : Bytes → Option StripeEvent)
    (secret body : Bytes) (sig : Option SigHeader) (now tolerance procNow : Nat)
    (st : Firestore) (e : StripeEvent)
    (hc : constructEvent hmac decode body sig secret now tolerance = some e)
    (hty : e.type = "checkout.session.completed") :
    (metadataInvoiceId e.object = none → st.queryBySessionId e.object.id = .ok none →
      webhookPost hmac decode (some secret) now tolerance procNow (some body) sig st
        = (.received, st) ∧ WebhookResponse.statusCode .received = 200) ∧
    (∀ xId, metadataInvoiceId e.object = some xId → st.available = true →
      st.getDoc xId = none →
      webhookPost hmac decode (some secret) now tolerance procNow (some body) sig st
        = (.processingError, st) ∧ WebhookResponse.statusCode .processingError = 500) := by
  constructor
  · intro hmeta hq
    rw [webhookPost_constructEvent_some hc,
      handleEvent_nometa_none e st procNow hty hmeta hq]
    exact ⟨rfl, rfl⟩
  · intro xId hmeta hav hgd
    have hfindnone : st.docs.find? (fun p => p.1 == xId) = none := by
      unfold Firestore.getDoc at hgd
      cases hf : st.docs.find? (fun p => p.1 == xId) with
      | none => rfl
      | some p => rw [hf] at hgd; exact Option.noConfusion hgd
    have hupd : st.updateDoc xId (applyPaid e.object procNow) = .error .notFound := by
      unfold Firestore.updateDoc
      rw [hav, hfindnone]
      simp
    rw [webhookPost_constructEvent_some hc,
      handleEvent_meta e st procNow xId hty hmeta, hupd]
    exact ⟨rfl, rfl⟩

/-- Witness for C6: a verified no-metadata event whose session id matches no
stored invoice is acknowledged with the 200 received response, store
untouched. -/
theorem C6_resolution_miss_witness :
    webhookPost (fun _ _ => 0) (fun _ => some exEventNoMeta) (some [7]) 0 300 0 (some [1])
      (some ⟨0, 0⟩) stPending = (.received, stPending) := by
  have h := C6_resolution_miss (fun _ _ => 0) (fun _ => some exEventNoMeta) [7] [1]
    (some ⟨0, 0⟩) 0 300 0 stPending exEventNoMeta (by decide) rfl
  exact (h.1 rfl (by decide)).1

/-- C7: when the document store is unreachable mid-update, a verified
recognized delivery is answered 500 "Error processing webhook", never 2xx;
and in general the route acknowledges 200 received only when the handler's
state update completed and its result is exactly the store the route
returns. -/
theorem C7_store_failure_5xx (hmac : Bytes → Bytes → Nat) (decode : Bytes → Option StripeEvent)
    (secret body : Bytes) (sig : Option SigHeader) (now tolerance procNow : Nat)
    (st : Firestore) (e : StripeEvent)
    (hc : constructEvent hmac decode body sig secret now tolerance = some e)
    (hty : e.type = "checkout.session.completed") :
    (st.available = false →
      webhookPost hmac decode (some secret) now tolerance procNow (some body) sig st
        = (.processingError, st) ∧ WebhookResponse.statusCode .processingError = 500 ∧
      (.processingError : WebhookResponse) ≠ .received) ∧
    (∀ st2, webhookPost hmac decode (some secret) now tolerance procNow (some body) sig st
        = (.received, st2) → handleEvent e st procNow = .ok st2) := by
  constructor
  · intro hdown
    have herr : handleEvent e st procNow = .error .unavailable := by
      cases hmeta : metadataInvoiceId e.object with
      | some invoiceId =>
        rw [handleEvent_meta e st procNow invoiceId hty hmeta]
        unfold Firestore.updateDoc
        rw [hdown]
        simp
      | none =>
        have hq : st.queryBySessionId e.object.id = .error .unavailable := by
          unfold Firestore.queryBySessionId
          rw [hdown]
          simp
        exact handleEvent_nometa_err e st procNow .unavailable hty hmeta hq
    rw [webhookPost_constructEvent_some hc, herr]
    exact ⟨rfl, rfl, fun hcon => WebhookResponse.noConfusion hcon⟩
  · intro st2 hok
    rw [webhookPost_constructEvent_some hc] at hok
    cases hh : handleEvent e st procNow with
    | error err =>
      rw [hh] at hok
      exact absurd hok (by simp)
    | ok st3 =>
      rw [hh] at hok
      have h5 : st3 = st2 := congrArg Prod.snd hok
      rw [h5]

/-- Witness for C7: the concrete verified `INV-1` confirmation delivered while
the store is unreachable is answered with the 500 processing-error response. -/
theorem C7_store_failure_5xx_witness :
    webhookPost (fun _ _ => 0) (fun _ => some exEvent) (some [7]) 0 300 0 (some [1])
      (some ⟨0, 0⟩) stDown = (.processingError, stDown) := by
  have h := C7_store_failure_5xx (fun _ _ => 0) (fun _ => some exEvent) [7] [1]
    (some ⟨0, 0⟩) 0 300 0 stDown exEvent (by decide) rfl
  exact (h.1 rfl).1

/-- C8 counterexample: under the capture strategy of `server.js`
(`express.json` with a verify hook on every route), a webhook request whose
body is the single opening-brace byte — not well-formed JSON — is rejected by
the generic parser and never reaches the webhook handler, contradicting the
claim that such a request still reaches the handler with its raw bytes. -/
theorem C8_malformed_body_cex :
    expressJsonWithVerify jsonParseAt123 () true [123] = .clientError := by
  decide

/-- C8 (amended): the capture layer never fails a request merely because the
route does not need `parsedBody`: every nonempty body the JSON parser accepts
reaches the handler with its raw bytes attached intact; but a nonempty body
the JSON parser rejects is answered 400 by the parser itself and never
reaches the handler. -/
theorem C8_capture_layer {α : Type} (parse : Bytes → Option α) (emptyObject : α)
    (body : Bytes) :
    (∀ v, parse body = some v → 0 < body.length →
      expressJsonWithVerify parse emptyObject true body = .handler (some body) (some v)) ∧
    (parse body = none → 0 < body.length →
      expressJsonWithVerify parse emptyObject true body = .clientError) := by
  constructor
  · intro v hv hlen
    simp [expressJsonWithVerify, hv, hlen, Nat.pos_iff_ne_zero.mp hlen]
  · intro hv hlen
    simp [expressJsonWithVerify, hv, hlen, Nat.pos_iff_ne_zero.mp hlen]

/-- Witness for C8: two concrete parseable one-byte bodies reach the handler
with their raw bytes attached. -/
theorem C8_capture_layer_witness :
    expressJsonWithVerify (fun _ => some ()) () true [97]
      = .handler (some [97]) (some ()) ∧
    expressJsonWithVerify jsonParseAt123 () true [124]
      = .handler (some [124]) (some ()) := by
  exact ⟨(C8_capture_layer (fun _ => some ()) () [97]).1 () rfl (by decide),
    (C8_capture_layer jsonParseAt123 () [124]).1 () (by decide) (by decide)⟩

/-- C9 counterexample: an empty JSON-content-typed body leaves `rawBody`
absent — the verify hook attaches only nonempty buffers — rather than
attaching a zero-length buffer as the claim states. -/
theorem C9_empty_body_cex :
    expressJsonWithVerify (fun _ => some ()) () true [] = .handler none (some ()) ∧
    (MiddlewareResult.handler none (some ()) : MiddlewareResult Unit)
      ≠ .handler (some ([] : Bytes)) (some ()) := by
  decide

/-- C9 (amended): on the webhook route an empty body leads to `rawBody` being
absent, not zero-length; the route then answers 400 "Raw body required"
without parsing an event (the outcome is independent of the decoding step)
and the store is untouched. -/
theorem C9_empty_body {α : Type} (parse : Bytes → Option α) (emptyObject : α)
    (hmac : Bytes → Bytes → Nat) (decode decode2 : Bytes → Option StripeEvent)
    (secret : Bytes) (now tolerance procNow : Nat) (sig : Option SigHeader)
    (st : Firestore) :
    expressJsonWithVerify parse emptyObject true [] = .handler none (some emptyObject) ∧
    webhookDelivery parse emptyObject hmac decode (some secret) now tolerance procNow
      true [] sig st = (.route .rawBodyRequired, st) ∧
    DeliveryResponse.statusCode (.route .rawBodyRequired) = 400 ∧
    webhookDelivery parse emptyObject hmac decode (some secret) now tolerance procNow
        true [] sig st
      = webhookDelivery parse emptyObject hmac decode2 (some secret) now tolerance procNow
        true [] sig st := by
  exact ⟨rfl, rfl, rfl, rfl⟩

/-- C10: every status the webhook processor writes is "paid": after any
successful handling every document either reads back exactly as before or as
the paid overwrite; a paid invoice can never leave the paid status through
the processor; and the update writes "paid" unconditionally, never reading
the invoice's current status. -/
theorem C10_only_writes_paid (e : StripeEvent) (st st1 : Firestore) (now : Nat)
    (h : handleEvent e st now = .ok st1) :
    (∀ id inv1, st1.getDoc id = some inv1 →
      st.getDoc id = some inv1 ∨ inv1.status = "paid") ∧
    (∀ id inv inv1, st.getDoc id = some inv → inv.status = "paid" →
      st1.getDoc id = some inv1 → inv1.status = "paid") ∧
    (∀ session t inv, (applyPaid session t inv).status = "paid") := by
  have main : ∀ id inv1, st1.getDoc id = some inv1 →
      st.getDoc id = some inv1 ∨ inv1.status = "paid" := by
    intro id inv1 hget
    by_cases hty : e.type = "checkout.session.completed"
    · cases hmeta : metadataInvoiceId e.object with
      | some invoiceId =>
        rw [handleEvent_meta e st now invoiceId hty hmeta] at h
        rw [getDoc_updateDoc h id] at hget
        by_cases hid : id = invoiceId
        · rw [if_pos hid] at hget
          cases hg : st.getDoc id with
          | none => rw [hg] at hget; exact Option.noConfusion hget
          | some inv0 =>
            rw [hg] at hget
            right
            have h6 : some (applyPaid e.object now inv0) = some inv1 := hget
            rw [← Option.some.inj h6]
            rfl
        · rw [if_neg hid] at hget
          exact Or.inl hget
      | none =>
        cases hq : st.queryBySessionId e.object.id with
        | error err =>
          rw [handleEvent_nometa_err e st now err hty hmeta hq] at h
          exact Except.noConfusion h
        | ok r =>
          cases r with
          | none =>
            rw [handleEvent_nometa_none e st now hty hmeta hq] at h
            injection h with h2
            subst h2
            exact Or.inl hget
          | some found =>
            rw [handleEvent_nometa_found e st now found hty hmeta hq] at h
            rw [getDoc_updateDoc h id] at hget
            by_cases hid : id = found.1
            · rw [if_pos hid] at hget
              cases hg : st.getDoc id with
              | none => rw [hg] at hget; exact Option.noConfusion hget
              | some inv0 =>
                rw [hg] at hget
                right
                have h6 : some (applyPaid e.object now inv0) = some inv1 := hget
                rw [← Option.some.inj h6]
                rfl
            · rw [if_neg hid] at hget
              exact Or.inl hget
    · rw [handleEvent_other e st now hty] at h
      injection h with h2
      subst h2
      exact Or.inl hget
  refine ⟨main, ?_, fun session t inv => rfl⟩
  intro id inv inv1 hgd hpaid hgd1
  rcases main id inv1 hgd1 with hsame | hp
  · rw [hgd] at hsame
    rw [← Option.some.inj hsame]
    exact hpaid
  · exact hp

/-- Witness for C10: after the concrete `INV-1` confirmation, the document
reads back with status "paid". -/
theorem C10_only_writes_paid_witness :
    stPending.getDoc "INV-1" = some (applyPaid exSession 7 pendingInv) ∨
    (applyPaid exSession 7 pendingInv).status = "paid" := by
  have h := C10_only_writes_paid exEvent stPending paidStore 7 (by decide)
  exact h.1 "INV-1" (applyPaid exSession 7 pendingInv) (by decide)
